import Mathlib

/-!
Verification of the core logic of `src/app.py` (Carrier Sales API).

Shallow embedding: Python strings are modelled as `List Char`.  The Python
string primitives used by the code (`str.strip`, `str.upper`, `str.startswith`,
slicing, `str.lstrip("0")`) are modelled below; case mapping is modelled on the
ASCII range (the range exercised by reference numbers, which the code's own
docstring describes as `'REF09460' -> '9460'`).  Python `//` on `int` is floor
division, modelled by `Int.fdiv`.
-/

namespace FcmsaMock

/-- The whitespace characters removed by Python `str.strip()` (ASCII range). -/
def pyIsSpace (c : Char) : Bool :=
  c == ' ' || c == '\t' || c == '\n' || c == '\r' || c == '\x0b' || c == '\x0c'

/-- Python `str.upper()` on a single character, ASCII range. -/
def pyToUpper (c : Char) : Char :=
  match c with
  | 'a' => 'A' | 'b' => 'B' | 'c' => 'C' | 'd' => 'D' | 'e' => 'E'
  | 'f' => 'F' | 'g' => 'G' | 'h' => 'H' | 'i' => 'I' | 'j' => 'J'
  | 'k' => 'K' | 'l' => 'L' | 'm' => 'M' | 'n' => 'N' | 'o' => 'O'
  | 'p' => 'P' | 'q' => 'Q' | 'r' => 'R' | 's' => 'S' | 't' => 'T'
  | 'u' => 'U' | 'v' => 'V' | 'w' => 'W' | 'x' => 'X' | 'y' => 'Y'
  | 'z' => 'Z'
  | _ => c

/-- Python `str.strip()`: drop leading and trailing whitespace. -/
def pyStrip (s : List Char) : List Char :=
  ((s.dropWhile pyIsSpace).reverse.dropWhile pyIsSpace).reverse

/-- Python `str.upper()`: uppercase every character. -/
def pyUpper (s : List Char) : List Char :=
  s.map pyToUpper

/-- The literal prefix `"REF"` tested by `ref.startswith("REF")`. -/
def refTag : List Char :=
  ['R', 'E', 'F']

/-- `normalize_reference` from `src/app.py` lines 18-26:
`ref = ref.strip().upper()`; if `ref.startswith("REF")` then `ref = ref[3:]`;
`return ref.lstrip("0")`. -/
def normalize_reference (ref : List Char) : List Char :=
  let r := pyUpper (pyStrip ref)
  let r2 := if refTag.isPrefixOf r then r.drop 3 else r
  r2.dropWhile (fun c => c == '0')

/-- The normalization pipeline as §4.1 of the spec words it: trim whitespace
and uppercase; if the result starts with the literal prefix `"REF"` remove
exactly those three characters; strip all leading `'0'` characters. -/
def normalizeSpecPipeline (raw : List Char) : List Char :=
  let trimmed := pyStrip raw
  let upper := pyUpper trimmed
  let afterTag := if refTag.isPrefixOf upper then upper.drop 3 else upper
  afterTag.dropWhile (fun c => c == '0')

/-- The response model of `POST /evaluate-offer` (`EvaluateOfferResponse`). -/
structure EvaluateOfferResponse where
  result : String
  new_offer : Int
  message : String
deriving DecidableEq

/-- `evaluate_offer` from `src/app.py` lines 169-200: accept when
`carrier_offer >= our_last_offer`; otherwise counter at
`(our_last_offer + carrier_offer) // 2` (Python floor division), with the
message text keyed on `offer_attempt == 1`. -/
def evaluate_offer (carrier_offer our_last_offer offer_attempt : Int) :
    EvaluateOfferResponse :=
  if carrier_offer ≥ our_last_offer then
    { result := "accept"
      new_offer := carrier_offer
      message := "Offer accepted." }
  else
    let new_offer := Int.fdiv (our_last_offer + carrier_offer) 2
    if offer_attempt == 1 then
      { result := "counter"
        new_offer := new_offer
        message := "We can go as low as " ++ toString new_offer ++ " on this load." }
    else
      { result := "counter"
        new_offer := new_offer
        message := "This is our final counter at " ++ toString new_offer ++ "." }

/-- The error raised through `HTTPException` in `get_load`. -/
structure HTTPError where
  status_code : Nat
  detail : String
deriving DecidableEq

/-- The `Load` pydantic model.  The CSV `rate` column is parsed to a Python
float; the values are decimal numbers, modelled as `Rat`. -/
structure Load where
  reference_number : List Char
  origin : List Char
  destination : List Char
  equipment_type : List Char
  rate : Rat
  commodity : List Char
deriving DecidableEq

/-- `get_load` from `src/app.py` lines 85-95: normalize the requested
reference number, look it up in the CSV-loaded table, and raise
`HTTPException(404, "Load not found")` when absent.  The table of
`load_data_csv` is modelled as an association list keyed by normalized
reference. -/
def get_load (table : List (List Char × Load)) (reference_number : List Char) :
    Except HTTPError Load :=
  let normalized := normalize_reference reference_number
  match table.lookup normalized with
  | some l => Except.ok l
  | none => Except.error { status_code := 404, detail := "Load not found" }

/-- A sample load record, as a row of `loads.csv`. -/
def exampleLoad : Load :=
  { reference_number := "REF09460".toList
    origin := "Denver, CO".toList
    destination := "Detroit, MI".toList
    equipment_type := "Dry Van".toList
    rate := 868
    commodity := "Automotive Parts".toList }

/-- A sample `load_data_csv` table keyed by normalized reference. -/
def exampleTable : List (List Char × Load) :=
  [("9460".toList, exampleLoad)]

/-! ### Helper lemmas -/

theorem fdiv_two_eq_ediv (n : Int) : Int.fdiv n 2 = n / 2 :=
  Int.fdiv_eq_ediv n (by decide)

theorem normalize_reference_eq (ref : List Char) :
    normalize_reference ref =
      (if refTag.isPrefixOf (pyUpper (pyStrip ref)) then (pyUpper (pyStrip ref)).drop 3
       else pyUpper (pyStrip ref)).dropWhile (fun c => c == '0') := rfl

theorem evaluate_offer_lt (a b k : Int) (h : a < b) :
    evaluate_offer a b k =
      { result := "counter"
        new_offer := Int.fdiv (b + a) 2
        message :=
          if k = 1 then
            "We can go as low as " ++ toString (Int.fdiv (b + a) 2) ++ " on this load."
          else
            "This is our final counter at " ++ toString (Int.fdiv (b + a) 2) ++ "." } := by
  unfold evaluate_offer
  rw [if_neg (by omega)]
  by_cases hk : k = 1
  · simp [hk]
  · simp [hk]

/-! ### Claims about the offer evaluator -/

/-- Claim C1: for every integer triple with `carrier_offer >= our_last_offer`,
`evaluate_offer` returns result `"accept"`, `new_offer` equal to
`carrier_offer`, and message `"Offer accepted."`, regardless of
`offer_attempt`. -/
theorem evaluate_offer_accepts (a b k : Int) (h : a ≥ b) :
    evaluate_offer a b k =
      { result := "accept", new_offer := a, message := "Offer accepted." } := by
  unfold evaluate_offer
  rw [if_pos h]

/-- Witness for C1 at `(800, 700, 1)`. -/
theorem evaluate_offer_accepts_witness :
    evaluate_offer 800 700 1 =
      { result := "accept", new_offer := 800, message := "Offer accepted." } :=
  evaluate_offer_accepts 800 700 1 (by decide)

/-- Claim C2: for every integer triple with `carrier_offer < our_last_offer`,
`evaluate_offer` counters at the floor of the average: its `new_offer` equals
`Int.fdiv (a + b) 2`, the unique integer `q` with `2 * q ≤ a + b < 2 * q + 2`
(floor division rounding toward negative infinity, not truncation toward
zero), and its result is `"counter"`. -/
theorem evaluate_offer_counters_at_floor_average (a b k : Int) (h : a < b) :
    (evaluate_offer a b k).result = "counter" ∧
    (evaluate_offer a b k).new_offer = Int.fdiv (a + b) 2 ∧
    2 * (evaluate_offer a b k).new_offer ≤ a + b ∧
    a + b < 2 * (evaluate_offer a b k).new_offer + 2 := by
  rw [evaluate_offer_lt a b k h]
  have hq : Int.fdiv (b + a) 2 = (b + a) / 2 := fdiv_two_eq_ediv (b + a)
  have hq' : Int.fdiv (a + b) 2 = (a + b) / 2 := fdiv_two_eq_ediv (a + b)
  refine ⟨rfl, ?_, ?_, ?_⟩
  · show Int.fdiv (b + a) 2 = Int.fdiv (a + b) 2
    rw [hq, hq']; omega
  · show 2 * Int.fdiv (b + a) 2 ≤ a + b
    rw [hq]; omega
  · show a + b < 2 * Int.fdiv (b + a) 2 + 2
    rw [hq]; omega

/-- Witness for C2 at `(-5, 0, 1)`: the floor of `-5 / 2` is `-3`, not the
truncation `-2`. -/
theorem evaluate_offer_counters_at_floor_average_witness :
    (-5 : Int) < 0 ∧
    ((evaluate_offer (-5) 0 1).result = "counter" ∧
     (evaluate_offer (-5) 0 1).new_offer = Int.fdiv (-5 + 0) 2 ∧
     2 * (evaluate_offer (-5) 0 1).new_offer ≤ -5 + 0 ∧
     -5 + 0 < 2 * (evaluate_offer (-5) 0 1).new_offer + 2) :=
  ⟨by decide, evaluate_offer_counters_at_floor_average (-5) 0 1 (by decide)⟩

/-- Claim C3: when `carrier_offer < our_last_offer`, the message of the
counter decision is determined solely by `offer_attempt`: exactly `1` yields
"We can go as low as {new_offer} on this load.", every other value yields
"This is our final counter at {new_offer}.". -/
theorem evaluate_offer_counter_message (a b k : Int) (h : a < b) :
    (evaluate_offer a b k).result = "counter" ∧
    (evaluate_offer a b k).message =
      (if k = 1 then
        "We can go as low as " ++ toString (Int.fdiv (b + a) 2) ++ " on this load."
      else
        "This is our final counter at " ++ toString (Int.fdiv (b + a) 2) ++ ".") := by
  rw [evaluate_offer_lt a b k h]
  exact ⟨rfl, rfl⟩

/-- Witness for C3 at `(600, 700, 2)`. -/
theorem evaluate_offer_counter_message_witness :
    (600 : Int) < 700 ∧
    ((evaluate_offer 600 700 2).result = "counter" ∧
     (evaluate_offer 600 700 2).message =
       (if (2 : Int) = 1 then
         "We can go as low as " ++ toString (Int.fdiv (700 + 600) 2) ++ " on this load."
       else
         "This is our final counter at " ++ toString (Int.fdiv (700 + 600) 2) ++ ".")) :=
  ⟨by decide, evaluate_offer_counter_message 600 700 2 (by decide)⟩

/-- Claim C8: `evaluate_offer` is total over all integer triples (it is a
total Lean function, with no validation of sign or attempt count), and its
result is always `"accept"` or `"counter"`; no input produces `"decline"`. -/
theorem evaluate_offer_never_declines (a b k : Int) :
    ((evaluate_offer a b k).result = "accept" ∨
     (evaluate_offer a b k).result = "counter") ∧
    (evaluate_offer a b k).result ≠ "decline" := by
  by_cases h : a ≥ b
  · rw [show evaluate_offer a b k =
        { result := "accept", new_offer := a, message := "Offer accepted." } from by
      unfold evaluate_offer; rw [if_pos h]]
    refine ⟨Or.inl rfl, ?_⟩
    show "accept" ≠ "decline"
    decide
  · rw [evaluate_offer_lt a b k (by omega)]
    refine ⟨Or.inr rfl, ?_⟩
    show "counter" ≠ "decline"
    decide

/-- Claim C9: when `carrier_offer < our_last_offer`, the counter value lies
between the two offers: `carrier_offer ≤ new_offer < our_last_offer`. -/
theorem evaluate_offer_counter_between (a b k : Int) (h : a < b) :
    a ≤ (evaluate_offer a b k).new_offer ∧
    (evaluate_offer a b k).new_offer < b := by
  rw [evaluate_offer_lt a b k h]
  have hq : Int.fdiv (b + a) 2 = (b + a) / 2 := fdiv_two_eq_ediv (b + a)
  constructor
  · show a ≤ Int.fdiv (b + a) 2
    rw [hq]; omega
  · show Int.fdiv (b + a) 2 < b
    rw [hq]; omega

/-- Witness for C9 at `(600, 700, 3)`. -/
theorem evaluate_offer_counter_between_witness :
    (600 : Int) < 700 ∧
    (600 ≤ (evaluate_offer 600 700 3).new_offer ∧
     (evaluate_offer 600 700 3).new_offer < 700) :=
  ⟨by decide, evaluate_offer_counter_between 600 700 3 (by decide)⟩

/-! ### Claims about the reference normalizer and the load lookup -/

/-- Claim C4: for every string, `normalize_reference` equals the spec's
pipeline — trim and uppercase, remove exactly the three characters `"REF"`
when that prefix is present, then strip all leading `'0'` characters — and in
particular maps `"REF09460"`, `"09460"`, `"9460"` to `"9460"` and `"REF000"`
to the empty string. -/
theorem normalize_reference_matches_spec_pipeline :
    (∀ raw : List Char, normalize_reference raw = normalizeSpecPipeline raw) ∧
    normalize_reference "REF09460".toList = "9460".toList ∧
    normalize_reference "09460".toList = "9460".toList ∧
    normalize_reference "9460".toList = "9460".toList ∧
    normalize_reference "REF000".toList = [] := by
  refine ⟨fun raw => rfl, ?_, ?_, ?_, ?_⟩ <;> decide

/-- Claim C10: the load lookup depends only on the normalized key — two raw
references that normalize alike produce identical outcomes against the same
table. -/
theorem get_load_depends_only_on_normalized_key
    (table : List (List Char × Load)) (r1 r2 : List Char)
    (h : normalize_reference r1 = normalize_reference r2) :
    get_load table r1 = get_load table r2 := by
  unfold get_load
  rw [h]

/-- Witness for C10: `"REF09460"` and `"09460"` normalize alike, hence look up
alike. -/
theorem get_load_depends_only_on_normalized_key_witness :
    normalize_reference "REF09460".toList = normalize_reference "09460".toList ∧
    get_load exampleTable "REF09460".toList = get_load exampleTable "09460".toList :=
  ⟨by decide,
   get_load_depends_only_on_normalized_key exampleTable "REF09460".toList "09460".toList
     (by decide)⟩

/-- Claim C7 counterexample: a request whose reference normalizes to the empty
string (`"REF000"`) is not surfaced as a distinct rejected-input condition:
`get_load` returns exactly the same `404 "Load not found"` outcome it returns
for an ordinary absent reference (`"REF123"`). -/
theorem get_load_empty_key_not_distinct :
    normalize_reference "REF000".toList = [] ∧
    get_load exampleTable "REF000".toList =
      Except.error { status_code := 404, detail := "Load not found" } ∧
    get_load exampleTable "REF000".toList = get_load exampleTable "REF123".toList := by
  refine ⟨by decide, rfl, rfl⟩

/-- Claim C7 amended: `get_load` treats a reference that normalizes to the
empty string as an ordinary lookup key; whenever the table has no entry under
the empty key, the outcome is the same `404 "Load not found"` error as for any
other absent reference — no distinct rejected-input error exists. -/
theorem get_load_empty_key_is_plain_not_found
    (table : List (List Char × Load)) (r : List Char)
    (h : normalize_reference r = [])
    (htbl : table.lookup ([] : List Char) = none) :
    get_load table r =
      Except.error { status_code := 404, detail := "Load not found" } := by
  simp only [get_load, h, htbl]

/-- Witness for the amended C7 at `"REF000"` against the sample table. -/
theorem get_load_empty_key_is_plain_not_found_witness :
    normalize_reference "REF000".toList = [] ∧
    exampleTable.lookup ([] : List Char) = none ∧
    get_load exampleTable "REF000".toList =
      Except.error { status_code := 404, detail := "Load not found" } :=
  ⟨by decide, by decide,
   get_load_empty_key_is_plain_not_found exampleTable "REF000".toList (by decide) (by decide)⟩

/-! ### Structure of normalized references -/

theorem dropWhile_head_not {α : Type} (p : α → Bool) (l : List α) :
    ∀ c, (l.dropWhile p).head? = some c → p c = false := by
  induction l with
  | nil => intro c hc; cases hc
  | cons a t ih =>
      intro c hc
      rw [List.dropWhile_cons] at hc
      by_cases hp : p a
      · rw [if_pos hp] at hc; exact ih c hc
      · rw [if_neg hp] at hc
        cases hc
        simpa using hp

theorem dropWhile_eq_self {α : Type} (p : α → Bool) (l : List α)
    (h : ∀ c, l.head? = some c → p c = false) : l.dropWhile p = l := by
  cases l with
  | nil => rfl
  | cons a t =>
      rw [List.dropWhile_cons, if_neg]
      simp [h a rfl]

theorem dropWhile_idem {α : Type} (p : α → Bool) (l : List α) :
    (l.dropWhile p).dropWhile p = l.dropWhile p :=
  dropWhile_eq_self p _ (dropWhile_head_not p l)

/-- The last character of `l`, when any, is not whitespace. -/
def noTrailWS (l : List Char) : Prop :=
  ∀ c, l.reverse.head? = some c → pyIsSpace c = false

theorem noTrailWS_pyStrip (s : List Char) : noTrailWS (pyStrip s) := by
  intro c hc
  simp only [pyStrip, List.reverse_reverse] at hc
  exact dropWhile_head_not pyIsSpace _ c hc

theorem pyToUpper_space (c : Char) : pyIsSpace (pyToUpper c) = pyIsSpace c := by
  unfold pyToUpper
  split <;> rfl

/-- The uppercase letters, the non-fixed-point outputs of `pyToUpper`. -/
def upperLetters : List Char :=
  ['A', 'B', 'C', 'D', 'E', 'F', 'G', 'H', 'I', 'J', 'K', 'L', 'M',
   'N', 'O', 'P', 'Q', 'R', 'S', 'T', 'U', 'V', 'W', 'X', 'Y', 'Z']

theorem pyToUpper_cases (c : Char) :
    pyToUpper c = c ∨ pyToUpper c ∈ upperLetters := by
  unfold pyToUpper
  split
  all_goals first
    | exact Or.inl rfl
    | exact Or.inr (by decide)

theorem pyToUpper_fix_of_upper {d : Char} (h : d ∈ upperLetters) :
    pyToUpper d = d := by
  fin_cases h <;> rfl

theorem pyToUpper_idem (c : Char) : pyToUpper (pyToUpper c) = pyToUpper c := by
  rcases pyToUpper_cases c with h | h
  · rw [h]; exact h
  · exact pyToUpper_fix_of_upper h

theorem noTrailWS_pyUpper {s : List Char} (h : noTrailWS s) :
    noTrailWS (pyUpper s) := by
  intro c hc
  rw [pyUpper, ← List.map_reverse, List.head?_map] at hc
  cases hh : s.reverse.head? with
  | none => rw [hh] at hc; cases hc
  | some d =>
      rw [hh] at hc
      cases hc
      rw [pyToUpper_space]
      exact h d hh

theorem noTrailWS_of_suffix {l m : List Char} (hs : m <:+ l)
    (h : noTrailWS l) : noTrailWS m := by
  intro c hc
  obtain ⟨u, rfl⟩ := hs
  apply h c
  rw [List.reverse_append]
  cases hm : m.reverse with
  | nil => rw [hm] at hc; cases hc
  | cons d ds =>
      rw [hm] at hc
      simpa using hc

theorem map_eq_self_of_fixed {α : Type} {f : α → α} :
    ∀ l : List α, (∀ c ∈ l, f c = c) → l.map f = l := by
  intro l
  induction l with
  | nil => intro _; rfl
  | cons a t ih =>
      intro h
      have ht := ih fun c hc => h c (List.mem_cons_of_mem a hc)
      simp [List.map_cons, ht, h a (List.mem_cons_self a t)]

theorem mem_pyUpper_fixed {s : List Char} {c : Char} (h : c ∈ pyUpper s) :
    pyToUpper c = c := by
  rw [pyUpper, List.mem_map] at h
  obtain ⟨d, -, rfl⟩ := h
  exact pyToUpper_idem d

theorem normalize_suffix_pyUpper (x : List Char) :
    normalize_reference x <:+ pyUpper (pyStrip x) := by
  rw [normalize_reference_eq]
  refine List.IsSuffix.trans (List.dropWhile_suffix _) ?_
  by_cases hb : refTag.isPrefixOf (pyUpper (pyStrip x))
  · rw [if_pos hb]; exact List.drop_suffix 3 _
  · rw [if_neg hb]

theorem noTrailWS_normalize (x : List Char) : noTrailWS (normalize_reference x) :=
  noTrailWS_of_suffix (normalize_suffix_pyUpper x)
    (noTrailWS_pyUpper (noTrailWS_pyStrip x))

theorem pyUpper_normalize (x : List Char) :
    pyUpper (normalize_reference x) = normalize_reference x := by
  apply map_eq_self_of_fixed
  intro c hc
  exact mem_pyUpper_fixed ((normalize_suffix_pyUpper x).sublist.subset hc)

theorem dropWhile_zero_normalize (x : List Char) :
    (normalize_reference x).dropWhile (fun c => c == '0') = normalize_reference x := by
  rw [normalize_reference_eq x]
  exact dropWhile_idem _ _

/-! ### Claims C5 and C6 -/

/-- Claim C5 counterexample: `normalize_reference` is not idempotent — on
`"REFREF5"` one pass yields `"REF5"` and a second pass yields `"5"`. -/
theorem normalize_reference_not_idempotent :
    normalize_reference "REFREF5".toList = "REF5".toList ∧
    normalize_reference (normalize_reference "REFREF5".toList) = "5".toList ∧
    normalize_reference (normalize_reference "REFREF5".toList) ≠
      normalize_reference "REFREF5".toList := by
  refine ⟨by decide, by decide, by decide⟩

/-- Claim C5 amended: `normalize_reference` is idempotent on every input whose
normalized form neither starts with a whitespace character nor starts with the
prefix `"REF"`; a second pass can differ only by re-trimming exposed leading
whitespace or re-removing an exposed `"REF"` prefix. -/
theorem normalize_reference_idempotent_of_clean (x : List Char)
    (h1 : (normalize_reference x).dropWhile pyIsSpace = normalize_reference x)
    (h2 : refTag.isPrefixOf (normalize_reference x) = false) :
    normalize_reference (normalize_reference x) = normalize_reference x := by
  have hstrip : pyStrip (normalize_reference x) = normalize_reference x := by
    rw [pyStrip, h1, dropWhile_eq_self pyIsSpace _ (noTrailWS_normalize x),
      List.reverse_reverse]
  rw [normalize_reference_eq (normalize_reference x), hstrip, pyUpper_normalize, h2,
    if_neg (by decide)]
  exact dropWhile_zero_normalize x

/-- Witness for the amended C5 at `"REF09460"`, whose normalized form `"9460"`
is clean. -/
theorem normalize_reference_idempotent_of_clean_witness :
    (normalize_reference "REF09460".toList).dropWhile pyIsSpace =
      normalize_reference "REF09460".toList ∧
    refTag.isPrefixOf (normalize_reference "REF09460".toList) = false ∧
    normalize_reference (normalize_reference "REF09460".toList) =
      normalize_reference "REF09460".toList :=
  ⟨by decide, by decide,
   normalize_reference_idempotent_of_clean "REF09460".toList (by decide) (by decide)⟩

/-- Claim C6 counterexample: the normalized form can still start with the
prefix `"REF"`: normalizing `"REFREF05"` yields `"REF05"`. -/
theorem normalize_reference_output_can_start_with_ref :
    normalize_reference "REFREF05".toList = "REF05".toList ∧
    refTag.isPrefixOf (normalize_reference "REFREF05".toList) = true := by
  refine ⟨by decide, by decide⟩

/-- Claim C6 amended: for every input, the output of `normalize_reference`
never starts with a `'0'` character (an all-zero value normalizes to the empty
string); the output can, however, still start with the prefix `"REF"` when the
input repeats it. -/
theorem normalize_reference_no_leading_zero (x : List Char) :
    (['0'] : List Char).isPrefixOf (normalize_reference x) = false := by
  rw [normalize_reference_eq]
  cases hd : (if refTag.isPrefixOf (pyUpper (pyStrip x)) then (pyUpper (pyStrip x)).drop 3
      else pyUpper (pyStrip x)).dropWhile (fun c => c == '0') with
  | nil => rfl
  | cons c cs =>
      have hc : (c == '0') = false :=
        dropWhile_head_not (fun c => c == '0')
          (if refTag.isPrefixOf (pyUpper (pyStrip x)) then (pyUpper (pyStrip x)).drop 3
           else pyUpper (pyStrip x)) c (by rw [hd]; rfl)
      show (('0' == c) && List.isPrefixOf [] cs) = false
      rw [List.isPrefixOf, Bool.and_true]
      rw [beq_eq_false_iff_ne] at hc ⊢
      exact fun he => hc he.symm

end FcmsaMock
